import Mathlib

/-!
A verification development for the AudoDB SQL engine (JavaScript sources:
`lexer.js`, `parser.js`, `database.js`, `interpreter.js`, `audodb.js`).

The JavaScript is shallowly embedded: rows are association lists of
lowercased column names to JS primitive values, the `Map`s used by the
storage engine are association lists with first-occurrence lookup and
replace-or-append `set`, and methods that can `throw` return `Except`.
Each method returns the resulting engine state; a thrown error leaves the
state unchanged, which mirrors the source, where every mutation of
`table.rows` / `this.databases` happens only after all checks passed.

File-system persistence (`saveToFile` / `loadFromFile`) and the audit log
are pure side channels: they never influence the values any method
returns, so they are not modelled.  Token line/column counters are carried
by the scanner in the source purely for diagnostics and are read by
nobody; they are omitted from the embedded tokens.
-/

namespace AudoDB

/-! ## JS primitive values

The engine only ever stores what `parseValue` in `parser.js` can produce
(integers via `parseInt` on a digit run, strings, `true`/`false`, `null`)
plus `undefined`, which arises when `values[index]` is read out of range in
`insertIntoTable`, or a missing object property is read. -/

inductive Value where
  | vInt (n : Int)
  | vStr (s : String)
  | vBool (b : Bool)
  | vNull
  | vUndefined
  deriving DecidableEq, Repr

/-- JS template-literal rendering `${val}` of a stored value. -/
def showValue : Value → String
  | .vInt n => toString n
  | .vStr s => s
  | .vBool true => "true"
  | .vBool false => "false"
  | .vNull => "null"
  | .vUndefined => "undefined"

def boolToInt (b : Bool) : Int := if b then 1 else 0

/-- JS `toLowerCase()`, character by character (the engine only lowercases
ASCII identifiers). -/
def lowerStr (s : String) : String := String.mk (s.data.map Char.toLower)

/-- JS `toUpperCase()`, character by character. -/
def upperStr (s : String) : String := String.mk (s.data.map Char.toUpper)

/-- JS String trim. -/
def trimStr (s : String) : String :=
  String.mk (((s.data.dropWhile Char.isWhitespace).reverse.dropWhile
    Char.isWhitespace).reverse)

/-- Value of an all-digit character run (`none` if empty or a non-digit occurs). -/
def digitsVal? (cs : List Char) : Option Nat :=
  match cs with
  | [] => none
  | _ => if cs.all Char.isDigit then
           some (cs.foldl (fun a c => a * 10 + (c.toNat - 48)) 0)
         else none

/-- JS `ToNumber` on a string, `none` standing for `NaN`.  Modelled for the
optionally-signed decimal-integer subset: the trimmed empty string is `0`,
an optional sign followed by digits is that integer, anything else
(fractions, exponents, hex, `Infinity`) coerces to `NaN` here. -/
def strToNum (s : String) : Option Int :=
  let t := (trimStr s)
  match t.data with
  | [] => some 0
  | '-' :: rest => (digitsVal? rest).map (fun n => -(n : Int))
  | '+' :: rest => (digitsVal? rest).map (fun n => (n : Int))
  | cs => (digitsVal? cs).map (fun n => (n : Int))

/-- JS `ToNumber` on a stored value (`none` = `NaN`). -/
def toNumber : Value → Option Int
  | .vInt n => some n
  | .vStr s => strToNum s
  | .vBool b => some (boolToInt b)
  | .vNull => some 0
  | .vUndefined => none

/-- JS loose equality `==` on stored values. -/
def jsLooseEq : Value → Value → Bool
  | .vInt m, .vInt n => m == n
  | .vStr s, .vStr t => s == t
  | .vBool a, .vBool b => a == b
  | .vNull, .vNull => true
  | .vUndefined, .vUndefined => true
  | .vNull, .vUndefined => true
  | .vUndefined, .vNull => true
  | .vInt m, .vStr s => strToNum s == some m
  | .vStr s, .vInt m => strToNum s == some m
  | .vBool b, .vInt n => boolToInt b == n
  | .vInt n, .vBool b => boolToInt b == n
  | .vBool b, .vStr s => strToNum s == some (boolToInt b)
  | .vStr s, .vBool b => strToNum s == some (boolToInt b)
  | _, _ => false

/-- JS abstract relational comparison `a < b`: both strings compare
lexicographically, otherwise both coerce to numbers and a `NaN` makes the
comparison false. -/
def jsLt : Value → Value → Bool
  | .vStr s, .vStr t => decide (s < t)
  | a, b =>
    match toNumber a, toNumber b with
    | some m, some n => decide (m < n)
    | _, _ => false

/-- JS abstract relational comparison `a > b`. -/
def jsGt : Value → Value → Bool
  | .vStr s, .vStr t => decide (t < s)
  | a, b =>
    match toNumber a, toNumber b with
    | some m, some n => decide (n < m)
    | _, _ => false

instance {eps alpha : Type} [DecidableEq eps] [DecidableEq alpha] :
    DecidableEq (Except eps alpha) := fun a b =>
  match a, b with
  | .ok x, .ok y => if h : x = y then .isTrue (by rw [h]) else .isFalse (by simp [h])
  | .error x, .error y => if h : x = y then .isTrue (by rw [h]) else .isFalse (by simp [h])
  | .ok _, .error _ => .isFalse (by simp)
  | .error _, .ok _ => .isFalse (by simp)

/-! ## Association lists: JS objects and `Map`s

Lookup returns the first entry with the key; `set` replaces the value of an
existing key in place, else appends (insertion order, as JS `Map.set` and
object property assignment do). -/

def getA {κ α : Type} [DecidableEq κ] : List (κ × α) → κ → Option α
  | [], _ => none
  | p :: m, k => if p.1 = k then some p.2 else getA m k

def setA {κ α : Type} [DecidableEq κ] : List (κ × α) → κ → α → List (κ × α)
  | [], k, v => [(k, v)]
  | p :: m, k, v => if p.1 = k then (k, v) :: m else p :: setA m k v

/-- Apply `f` to the value stored at `k` (the JS idiom of mutating the
object obtained from `map.get(k)` in place). -/
def updateA {κ α : Type} [DecidableEq κ] : List (κ × α) → κ → (α → α) → List (κ × α)
  | [], _, _ => []
  | p :: m, k, f => if p.1 = k then (p.1, f p.2) :: m else p :: updateA m k f

/-! ## Rows and the relational data model (`database.js`) -/

/-- A row: a JS object mapping lowercased column names to values. -/
def Row : Type := List (String × Value)

instance : DecidableEq Row := by unfold Row; infer_instance

instance : Repr Row := by unfold Row; infer_instance

/-- `row[k]` — reading a missing property yields `undefined`. -/
def rowLookup (r : Row) (k : String) : Value :=
  match getA r k with
  | some v => v
  | none => .vUndefined

/-- `row[k] = v`. -/
def rowSet (r : Row) (k : String) (v : Value) : Row := setA r k v

/-- Object spread `{...l, ...r}`: the properties of `l` assigned in order
into a fresh object, then those of `r` (overriding on key collision). -/
def rowMerge (l r : Row) : Row :=
  r.foldl (fun a p => rowSet a p.1 p.2) (l.foldl (fun a p => rowSet a p.1 p.2) [])

structure ColumnDef where
  name : String
  type : String
  deriving DecidableEq, Repr

structure ForeignKey where
  column : String
  refTable : String
  refCol : String
  deriving DecidableEq, Repr

structure Constraints where
  primaryKey : Option String
  foreignKeys : List ForeignKey
  deriving DecidableEq, Repr

/-- One index built by `createIndex`: a `Map` from a column value to the
list of rows holding it. -/
def TblIndex : Type := List (Value × List Row)

instance : DecidableEq TblIndex := by unfold TblIndex; infer_instance

structure Table where
  name : String
  columns : List ColumnDef
  constraints : Constraints
  rows : List Row
  indices : List (String × TblIndex)
  deriving DecidableEq

structure DB where
  name : String
  tables : List (String × Table)
  deriving DecidableEq

/-- The engine: the `databases` map plus the process-wide current-database
selection.  The source stores a reference to the selected `DB` object; the
embedding stores its key, and every method dereferences it through
`databases`, which is equivalent because a selected database is never
removed or replaced. -/
structure Engine where
  databases : List (String × DB)
  currentDatabase : Option String
  deriving DecidableEq

/-- The selected database, with its key (`this.currentDatabase`).  A
selected name absent from `databases` cannot arise in the source (the
reference always points into the map); the embedding treats it as no
selection. -/
def curDb (st : Engine) : Option (String × DB) :=
  match st.currentDatabase with
  | none => none
  | some n =>
    match getA st.databases n with
    | none => none
    | some db => some (n, db)

/-- Write table `tn` into the currently selected database `dbn`
(`this.currentDatabase.tables.set(tn, t)`). -/
def engSetTable (st : Engine) (dbn tn : String) (t : Table) : Engine :=
  { st with databases :=
      updateA st.databases dbn (fun db => { db with tables := setA db.tables tn t }) }

/-! ## Storage-engine methods (`database.js`)

Each method takes and returns the engine state next to its `Except`
result; the state component equals the input state whenever the result is
an error, because in the source every `throw` happens before the first
mutation of `this.databases` / `table.rows`. -/

/-- `projectColumns(data, columns)`. -/
def projectColumns (data : List Row) (columns : List String) : List Row :=
  if columns.headD "" = "*" then data
  else data.map (fun row =>
    columns.foldl (fun projected col =>
      rowSet projected (lowerStr col) (rowLookup row (lowerStr col))) [])

/-- `createDatabase(name)`. -/
def createDatabase (st : Engine) (name : String) : Except String String × Engine :=
  if (getA st.databases name).isSome then
    (.error ("Database '" ++ name ++ "' already exists"), st)
  else
    (.ok ("Database '" ++ name ++ "' created successfully"),
     { st with databases := setA st.databases name { name := name, tables := [] } })

/-- `useDatabase(name)`. -/
def useDatabase (st : Engine) (name : String) : Except String String × Engine :=
  if (getA st.databases name).isSome then
    (.ok ("Using database '" ++ name ++ "'"), { st with currentDatabase := some name })
  else
    (.error ("Database '" ++ name ++ "' does not exist"), st)

/-- `showDatabases()`. -/
def showDatabases (st : Engine) : Except String String × Engine :=
  let dbNames := st.databases.map (fun p => p.1)
  (.ok (if dbNames.length = 0 then "No databases found"
        else String.intercalate "\n" dbNames), st)

/-- `showTables()`. -/
def showTables (st : Engine) : Except String String × Engine :=
  match curDb st with
  | none => (.error "No database selected", st)
  | some (_, db) =>
    let tableNames := db.tables.map (fun p => p.1)
    (.ok (if tableNames.length = 0 then "No tables found"
          else String.intercalate "\n" tableNames), st)

/-- Column normalization inside `createTable`. -/
def normalizeColumns (columns : List ColumnDef) : List ColumnDef :=
  columns.map (fun col => { name := (lowerStr col.name), type := col.type })

/-- Constraint normalization inside `createTable`; the conditional mirrors
the JS truthiness test `constraints.primaryKey ? ... : null`, under which
an empty-string key (never produced by the parser) also becomes `null`. -/
def normalizeConstraints (constraints : Constraints) : Constraints :=
  { primaryKey :=
      match constraints.primaryKey with
      | some s => if s = "" then none else some (lowerStr s)
      | none => none,
    foreignKeys := constraints.foreignKeys.map (fun fk =>
      { column := (lowerStr fk.column), refTable := fk.refTable, refCol := (lowerStr fk.refCol) }) }

/-- `createTable(name, columns, constraints)`: no existence guard — an
existing table of the same name is overwritten by a fresh empty one. -/
def createTable (st : Engine) (name : String) (columns : List ColumnDef)
    (constraints : Constraints) : Except String String × Engine :=
  match curDb st with
  | none => (.error "No database selected", st)
  | some (dbn, _) =>
    (.ok ("Table '" ++ name ++ "' created successfully."),
     engSetTable st dbn name
       { name := name, columns := normalizeColumns columns,
         constraints := normalizeConstraints constraints, rows := [], indices := [] })

/-- The foreign-key membership test of `insertIntoTable`:
`refTable && refTable.rows.some((r) => r[fk.refCol] === val)`. -/
def fkRowExists (db : DB) (fk : ForeignKey) (val : Value) : Bool :=
  match getA db.tables fk.refTable with
  | none => false
  | some refTable => refTable.rows.any (fun r => rowLookup r fk.refCol == val)

/-- The `table.columns.forEach((col, index) => ...)` loop of
`insertIntoTable`, building the row object; a constraint violation aborts
it by throwing.  `values[index]` beyond the end of the value list is
`undefined`. -/
def insertRowLoop (db : DB) (t : Table) (values : List Value) :
    List ColumnDef → Nat → Row → Except String Row
  | [], _, row => .ok row
  | col :: rest, index, row =>
    let val := values.getD index .vUndefined
    let colName := (lowerStr col.name)
    if t.constraints.primaryKey == some colName
        && t.rows.any (fun r => rowLookup r colName == val) then
      .error ("PK Violation: " ++ showValue val)
    else
      match t.constraints.foreignKeys.find? (fun f => f.column == colName) with
      | some fk =>
        if fkRowExists db fk val then
          insertRowLoop db t values rest (index + 1) (rowSet row colName val)
        else
          .error ("FK Violation: " ++ showValue val)
      | none => insertRowLoop db t values rest (index + 1) (rowSet row colName val)

/-- `insertIntoTable(tableName, values)`. -/
def insertIntoTable (st : Engine) (tableName : String) (values : List Value) :
    Except String String × Engine :=
  match curDb st with
  | none => (.error "No database selected", st)
  | some (dbn, db) =>
    match getA db.tables tableName with
    | none => (.error ("Table '" ++ tableName ++ "' does not exist"), st)
    | some t =>
      match insertRowLoop db t values t.columns 0 [] with
      | .error e => (.error e, st)
      | .ok row =>
        (.ok "1 row inserted", engSetTable st dbn tableName { t with rows := t.rows ++ [row] })

/-- A parsed WHERE clause: `left`, the operator literal, and the right
operand (an integer or string literal, or an identifier kept as a string). -/
structure WhereClause where
  left : String
  operator : String
  right : Value
  deriving DecidableEq, Repr

/-- A parsed JOIN clause. -/
structure JoinClause where
  table : String
  leftCol : String
  rightCol : String
  deriving DecidableEq, Repr

/-- `selectFromTable(tableName, columns, whereClause, joinClause)`.  The
join pairs every left row with every right row and keeps strictly (`===`)
equal column values; the joined record is the object spread
`{...l, ...r}`.  A join against an absent table reads `.rows` of
`undefined` — the resulting `TypeError` is modelled as the error string
V8 raises for it. -/
def selectFromTable (st : Engine) (tableName : String) (columns : List String)
    (whereClause : Option WhereClause) (joinClause : Option JoinClause) :
    Except String (List Row) × Engine :=
  match curDb st with
  | none => (.error "No database selected", st)
  | some (_, db) =>
    match getA db.tables tableName with
    | none => (.error ("Table '" ++ tableName ++ "' does not exist"), st)
    | some leftTable =>
      let joined : Except String (List Row) :=
        match joinClause with
        | none => .ok leftTable.rows
        | some j =>
          match getA db.tables j.table with
          | none => .error "Cannot read properties of undefined (reading 'rows')"
          | some rightTable =>
            let leftCol := (lowerStr j.leftCol)
            let rightCol := (lowerStr j.rightCol)
            .ok (leftTable.rows.flatMap (fun l =>
              (rightTable.rows.filter (fun r =>
                rowLookup l leftCol == rowLookup r rightCol)).map (fun r => rowMerge l r)))
      match joined with
      | .error e => (.error e, st)
      | .ok data =>
        let filtered :=
          match whereClause with
          | none => data
          | some w => data.filter (fun row =>
              let val := rowLookup row (lowerStr w.left)
              match w.operator with
              | "=" => jsLooseEq val w.right
              | ">" => jsGt val w.right
              | "<" => jsLt val w.right
              | _ => true)
        (.ok (projectColumns filtered columns), st)

/-- The assignment pass of `updateTable`:
`Object.keys(updates).forEach((c) => row[c.toLowerCase()] = updates[c])`. -/
def applyUpdates (updates : List (String × Value)) (row : Row) : Row :=
  updates.foldl (fun r p => rowSet r (lowerStr p.1) p.2) row

/-- The per-row `shouldUpdate` computation of `updateTable`: `true` when
WHERE is omitted, and its `switch` leaves the initial `true` in place on an
operator other than `=`, `>`, `<`. -/
def shouldUpdateRow (whereClause : Option WhereClause) (row : Row) : Bool :=
  match whereClause with
  | none => true
  | some w =>
    let val := rowLookup row (lowerStr w.left)
    match w.operator with
    | "=" => jsLooseEq val w.right
    | ">" => jsGt val w.right
    | "<" => jsLt val w.right
    | _ => true

/-- `updateTable(tableName, updates, whereClause)`. -/
def updateTable (st : Engine) (tableName : String) (updates : List (String × Value))
    (whereClause : Option WhereClause) : Except String String × Engine :=
  match curDb st with
  | none => (.error "No database selected", st)
  | some (dbn, db) =>
    match getA db.tables tableName with
    | none => (.error ("Table '" ++ tableName ++ "' does not exist"), st)
    | some t =>
      let newRows := t.rows.map (fun row =>
        if shouldUpdateRow whereClause row then applyUpdates updates row else row)
      let updatedCount := t.rows.countP (fun row => shouldUpdateRow whereClause row)
      (.ok (toString updatedCount ++ " row(s) updated"),
       engSetTable st dbn tableName { t with rows := newRows })

/-- The per-row keep test of `deleteFromTable`'s `filter`: a fallen-through
`switch` returns `undefined`, which is falsy, so an operator other than
`=`, `>`, `<` would keep nothing. -/
def deleteKeepsRow (w : WhereClause) (row : Row) : Bool :=
  let v := rowLookup row (lowerStr w.left)
  match w.operator with
  | "=" => !jsLooseEq v w.right
  | ">" => !jsGt v w.right
  | "<" => !jsLt v w.right
  | _ => false

/-- `deleteFromTable(tableName, whereClause)`.  There is no existence
check: a missing table reads `.rows` of `undefined` and the `TypeError` is
modelled as V8's error string. -/
def deleteFromTable (st : Engine) (tableName : String)
    (whereClause : Option WhereClause) : Except String String × Engine :=
  match curDb st with
  | none => (.error "No database selected", st)
  | some (dbn, db) =>
    match getA db.tables tableName with
    | none => (.error "Cannot read properties of undefined (reading 'rows')", st)
    | some t =>
      let newRows :=
        match whereClause with
        | none => []
        | some w => t.rows.filter (fun row => deleteKeepsRow w row)
      let deletedCount := t.rows.length - newRows.length
      (.ok (toString deletedCount ++ " row(s) deleted"),
       engSetTable st dbn tableName { t with rows := newRows })

/-- `createIndex(tableName, columnName)`: groups the current rows by their
value in the column and stores the grouping under the lowercased column
name, replacing any previous index on it. -/
def createIndex (st : Engine) (tableName : String) (columnName : String) :
    Except String String × Engine :=
  match curDb st with
  | none => (.error "No database selected", st)
  | some (dbn, db) =>
    match getA db.tables tableName with
    | none => (.error ("Table " ++ tableName ++ " not found"), st)
    | some t =>
      let normalizedCol := (lowerStr columnName)
      let index : TblIndex := t.rows.foldl (fun ix row =>
        let val := rowLookup row normalizedCol
        match getA ix val with
        | none => setA ix val [row]
        | some rs => setA ix val (rs ++ [row])) []
      (.ok ("Index created on " ++ tableName ++ "(" ++ normalizedCol ++ ")"),
       engSetTable st dbn tableName
         { t with indices := setA t.indices normalizedCol index })

/-! ## Tokenizer (`lexer.js`)

The scanner state is the input (as a character list) and the index of the
current character; `chAt` past the end is the sentinel `'\0'`, exactly the
source's `readChar` convention.  Line/column counters are omitted (pure
diagnostics, read by nobody). -/

inductive TokType where
  | CREATE | DATABASE | TABLE | DATABASES | TABLES
  | SELECT | INSERT | INTO | VALUES | UPDATE | DELETE | FROM | WHERE | SET
  | JOIN | ON
  | PRIMARY | KEY | FOREIGN | REFERENCES | UNIQUE
  | NULL | INT | BOOLEAN | TEXT | TRUE | FALSE
  | USE | SHOW | INDEX
  | COMMA | SEMICOLON | PERIOD | LEFT_PAREN | RIGHT_PAREN
  | ASSIGN | LESS_THAN | GREATER_THAN | ASTERISK
  | IDENTIFIER | STRING | INTEGER
  | DOT_EXIT | DOT_CLEAR | DOT_QUIT
  | EOF | ILLEGAL
  deriving DecidableEq, Repr

/-- The string constant each member of the source's `TokenType` object
holds (used verbatim inside parser error messages). -/
def tokTypeStr : TokType → String
  | .CREATE => "CREATE" | .DATABASE => "DATABASE" | .TABLE => "TABLE"
  | .DATABASES => "DATABASES" | .TABLES => "TABLES"
  | .SELECT => "SELECT" | .INSERT => "INSERT" | .INTO => "INTO"
  | .VALUES => "VALUES" | .UPDATE => "UPDATE" | .DELETE => "DELETE"
  | .FROM => "FROM" | .WHERE => "WHERE" | .SET => "SET"
  | .JOIN => "JOIN" | .ON => "ON"
  | .PRIMARY => "PRIMARY" | .KEY => "KEY" | .FOREIGN => "FOREIGN"
  | .REFERENCES => "REFERENCES" | .UNIQUE => "UNIQUE"
  | .NULL => "NULL" | .INT => "INT" | .BOOLEAN => "BOOLEAN" | .TEXT => "TEXT"
  | .TRUE => "TRUE" | .FALSE => "FALSE"
  | .USE => "USE" | .SHOW => "SHOW" | .INDEX => "INDEX"
  | .COMMA => "COMMA" | .SEMICOLON => "SEMICOLON" | .PERIOD => "PERIOD"
  | .LEFT_PAREN => "LEFT_PAREN" | .RIGHT_PAREN => "RIGHT_PAREN"
  | .ASSIGN => "ASSIGN" | .LESS_THAN => "LESS_THAN"
  | .GREATER_THAN => "GREATER_THAN" | .ASTERISK => "ASTERISK"
  | .IDENTIFIER => "IDENTIFIER" | .STRING => "STRING" | .INTEGER => "INTEGER"
  | .DOT_EXIT => "DOT_EXIT" | .DOT_CLEAR => "DOT_CLEAR" | .DOT_QUIT => "DOT_QUIT"
  | .EOF => "EOF" | .ILLEGAL => "ILLEGAL"

structure Token where
  type : TokType
  literal : String
  deriving DecidableEq, Repr

/-- The source's `Keywords` object.  Note that `PRIMARY`, `KEY`, `FOREIGN`,
`REFERENCES` and `UNIQUE` exist in `TokenType` but are (as in the source)
absent here, so the scanner emits them as plain identifiers. -/
def keywords : List (String × TokType) :=
  [("CREATE", .CREATE), ("DATABASE", .DATABASE), ("DATABASES", .DATABASES),
   ("TABLES", .TABLES), ("TABLE", .TABLE),
   ("SELECT", .SELECT), ("INSERT", .INSERT), ("INTO", .INTO), ("VALUES", .VALUES),
   ("UPDATE", .UPDATE), ("DELETE", .DELETE), ("FROM", .FROM), ("WHERE", .WHERE),
   ("SET", .SET), ("NULL", .NULL), ("TRUE", .TRUE), ("FALSE", .FALSE),
   ("JOIN", .JOIN), ("ON", .ON),
   ("INT", .INT), ("TEXT", .TEXT), ("BOOLEAN", .BOOLEAN),
   ("USE", .USE), ("SHOW", .SHOW), ("INDEX", .INDEX)]

/-- The source's `DotCommands` object. -/
def dotCommands : List (String × TokType) :=
  [(".exit", .DOT_EXIT), (".clear", .DOT_CLEAR), (".quit", .DOT_QUIT)]

/-- `TokenUtils.getKeywordType` (the argument is uppercased by the caller
and the lookup uppercases again; both are modelled by one `toUpper`). -/
def getKeywordType? (s : String) : Option TokType := getA keywords (upperStr s)

/-- `TokenUtils.getDotCommandType`. -/
def getDotCommandType? (s : String) : Option TokType := getA dotCommands (lowerStr s)

def nulChar : Char := Char.ofNat 0

/-- The current character: `'\0'` once past the end of the input. -/
def chAt (inp : List Char) (p : Nat) : Char := inp.getD p nulChar

/-- `isLetter` of the source (ASCII letters and underscore). -/
def isLetterC (c : Char) : Bool :=
  ('a' ≤ c && c ≤ 'z') || ('A' ≤ c && c ≤ 'Z') || c = '_'

/-- `isDigit` of the source. -/
def isDigitC (c : Char) : Bool := '0' ≤ c && c ≤ '9'

def isWsC (c : Char) : Bool := c = ' ' || c = '\t' || c = '\n' || c = '\r'

/-- The loop of `skipWhitespace`, recursing on fuel so that the
definition unfolds by iota reduction; `skipWhitespace` passes
`inp.length`, which can never run out before a non-whitespace character
or the end sentinel is reached. -/
def skipWsFrom (inp : List Char) : Nat → Nat → Nat
  | 0, p => p
  | fuel + 1, p => if isWsC (chAt inp p) then skipWsFrom inp fuel (p + 1) else p

/-- `skipWhitespace`. -/
def skipWhitespace (inp : List Char) (p : Nat) : Nat := skipWsFrom inp inp.length p

/-- The scanning loop shared by `readIdentifier`/`readNumber`, on fuel for
the same reason as `skipWsFrom`; the bound `p < inp.length` mirrors that
past the end the character is the sentinel `'\0'`, which the scanners'
predicates reject. -/
def scanEndFrom (inp : List Char) (f : Char → Bool) : Nat → Nat → Nat
  | 0, p => p
  | fuel + 1, p =>
    if p < inp.length ∧ f (chAt inp p) then scanEndFrom inp f fuel (p + 1) else p

/-- First index at or after `p` whose character fails `f` (or the end). -/
def scanEnd (inp : List Char) (f : Char → Bool) (p : Nat) : Nat :=
  scanEndFrom inp f inp.length p

def isIdentC (c : Char) : Bool := isLetterC c || isDigitC c || c = '_'

/-- `readIdentifier`: the scanned slice and the position after it. -/
def readIdentifier (inp : List Char) (p : Nat) : String × Nat :=
  let e := scanEnd inp isIdentC p
  (String.mk ((inp.drop p).take (e - p)), e)

/-- `readNumber`. -/
def readNumber (inp : List Char) (p : Nat) : String × Nat :=
  let e := scanEnd inp isDigitC p
  (String.mk ((inp.drop p).take (e - p)), e)

/-- The loop of `readString`, on fuel like `scanEndFrom`. -/
def strEndFrom (inp : List Char) (q : Char) : Nat → Nat → Nat
  | 0, p => p
  | fuel + 1, p =>
    if p < inp.length ∧ chAt inp p ≠ q ∧ chAt inp p ≠ nulChar then
      strEndFrom inp q fuel (p + 1)
    else p

/-- End of a quoted run starting after the opening quote at `p - 1`: the
first index holding the quote again or `'\0'` (a real NUL or the end). -/
def strEnd (inp : List Char) (q : Char) (p : Nat) : Nat :=
  strEndFrom inp q inp.length p

/-- `nextToken`: one token and the next scan position.  The dot-command
branch calls `readIdentifier` while the current character is still the
`'.'`, so the scan consumes nothing and the position does not advance — a
slip kept from the source (it makes `tokenize` loop forever there). -/
def nextToken (inp : List Char) (pos : Nat) : Token × Nat :=
  let p := skipWhitespace inp pos
  match chAt inp p with
  | '.' =>
    if (p == 0 || chAt inp (p - 1) == ' ' || chAt inp (p - 1) == '\n')
        && isLetterC (chAt inp (p + 1)) then
      let scanned := readIdentifier inp p
      let ident := "." ++ scanned.1
      match getDotCommandType? ident with
      | some cmdType => (⟨cmdType, ident⟩, scanned.2)
      | none => (⟨.ILLEGAL, ident⟩, scanned.2)
    else (⟨.PERIOD, "."⟩, p + 1)
  | '=' => (⟨.ASSIGN, "="⟩, p + 1)
  | '<' => (⟨.LESS_THAN, "<"⟩, p + 1)
  | '>' => (⟨.GREATER_THAN, ">"⟩, p + 1)
  | '*' => (⟨.ASTERISK, "*"⟩, p + 1)
  | ',' => (⟨.COMMA, ","⟩, p + 1)
  | ';' => (⟨.SEMICOLON, ";"⟩, p + 1)
  | '(' => (⟨.LEFT_PAREN, "("⟩, p + 1)
  | ')' => (⟨.RIGHT_PAREN, ")"⟩, p + 1)
  | c =>
    if c = '\'' || c = '"' then
      let e := strEnd inp c (p + 1)
      let value := String.mk ((inp.drop (p + 1)).take (e - (p + 1)))
      let pAfter := if chAt inp e = c then e + 1 else e
      (⟨.STRING, value⟩, pAfter)
    else if c = nulChar then (⟨.EOF, ""⟩, p)
    else if isLetterC c then
      let scanned := readIdentifier inp p
      match getKeywordType? (upperStr scanned.1) with
      | some keywordType => (⟨keywordType, (upperStr scanned.1)⟩, scanned.2)
      | none => (⟨.IDENTIFIER, scanned.1⟩, scanned.2)
    else if isDigitC c then
      let scanned := readNumber inp p
      (⟨.INTEGER, scanned.1⟩, scanned.2)
    else (⟨.ILLEGAL, String.mk [c]⟩, p + 1)

/-- The `tokenize` loop, with fuel standing in for the source's unbounded
`while`.  Every token other than `EOF` advances the position by at least
one character except in the broken dot-command branch, where `nextToken`
is a fixed point; so a scan the source completes needs at most
`inp.length + 1` iterations, and a `none` result reports exactly the
inputs on which the source's `tokenize` never returns. -/
def tokenizeAux (inp : List Char) : Nat → Nat → Option (List Token)
  | _, 0 => none
  | p, fuel + 1 =>
    let step := nextToken inp p
    if step.1.type = TokType.EOF then some [step.1]
    else
      match tokenizeAux inp step.2 fuel with
      | some ts => some (step.1 :: ts)
      | none => none

/-- `tokenize`, as a partial function: `some` the token sequence the source
returns, `none` when the source's loop diverges. -/
def tokenize? (inp : List Char) : Option (List Token) :=
  tokenizeAux inp 0 (inp.length + 2)

/-! ## Parser (`parser.js`)

The parser state (token array plus cursor) is embedded as the suffix of
the token list still to be consumed; the current token of an exhausted
suffix is a synthesized `EOF` token, as in the source's `nextToken`. -/

def eofToken : Token := ⟨.EOF, ""⟩

/-- `this.currentToken`. -/
def peekT (ts : List Token) : Token := ts.headD eofToken

/-- `expect(tokenType)`: consume and return the current token, or fail
with the source's "Expected X, got Y" message. -/
def expectT (tokenType : TokType) (ts : List Token) :
    Except String (Token × List Token) :=
  if (peekT ts).type = tokenType then .ok (peekT ts, ts.tail)
  else .error ("Expected " ++ tokTypeStr tokenType ++ ", got " ++
               tokTypeStr (peekT ts).type)

theorem expectT_ok_tail {tokenType : TokType} {ts ts' : List Token} {tok : Token}
    (h : expectT tokenType ts = .ok (tok, ts')) :
    ts' = ts.tail ∧ (peekT ts).type = tokenType := by
  unfold expectT at h
  split at h
  · refine ⟨?_, by assumption⟩
    simp only [Except.ok.injEq, Prod.mk.injEq] at h
    exact h.2.symm
  · exact absurd h (by simp)

theorem expectT_length_lt {tokenType : TokType} {ts ts' : List Token} {tok : Token}
    (h : expectT tokenType ts = .ok (tok, ts')) (hne : tokenType ≠ TokType.EOF) :
    ts'.length < ts.length := by
  obtain ⟨h1, h2⟩ := expectT_ok_tail h
  subst h1
  cases ts with
  | nil => exact absurd h2.symm (by simpa [peekT, eofToken] using hne)
  | cons a l => simp

/-- `parseIdentifier()`: a plain identifier or a qualified
`table.column` built around a `PERIOD` token. -/
def parseIdentifier (ts : List Token) : Except String (String × List Token) :=
  match expectT .IDENTIFIER ts with
  | .error e => .error e
  | .ok (tok, ts1) =>
    if (peekT ts1).type = TokType.PERIOD then
      match expectT .IDENTIFIER ts1.tail with
      | .error e => .error e
      | .ok (tok2, ts2) => .ok (tok.literal ++ "." ++ tok2.literal, ts2)
    else .ok (tok.literal, ts1)

theorem parseIdentifier_length_lt {ts ts' : List Token} {s : String}
    (h : parseIdentifier ts = .ok (s, ts')) : ts'.length < ts.length := by
  unfold parseIdentifier at h
  split at h
  · exact absurd h (by simp)
  · rename_i tok ts1 h1
    have l1 : ts1.length < ts.length := expectT_length_lt h1 (by decide)
    split at h
    · split at h
      · exact absurd h (by simp)
      · rename_i tok2 ts2 h2
        simp only [Except.ok.injEq, Prod.mk.injEq] at h
        obtain ⟨-, h4⟩ := h
        subst h4
        have l2 : ts2.length < ts1.tail.length := expectT_length_lt h2 (by decide)
        have l3 : ts1.tail.length ≤ ts1.length := by cases ts1 <;> simp
        omega
    · simp only [Except.ok.injEq, Prod.mk.injEq] at h
      obtain ⟨-, h4⟩ := h
      subst h4
      omega

/-- `parseInt` on an `INTEGER` token's literal (always a nonempty digit
run, so the fallback is unreachable). -/
def parseIntLit (s : String) : Int :=
  match (digitsVal? s.data) with
  | some n => (n : Int)
  | none => 0

/-- `parseValue()`: one literal. -/
def parseValue (ts : List Token) : Except String (Value × List Token) :=
  match (peekT ts).type with
  | .INTEGER => .ok (.vInt (parseIntLit (peekT ts).literal), ts.tail)
  | .STRING => .ok (.vStr (peekT ts).literal, ts.tail)
  | .TRUE => .ok (.vBool true, ts.tail)
  | .FALSE => .ok (.vBool false, ts.tail)
  | .NULL => .ok (.vNull, ts.tail)
  | t => .error ("Invalid value: " ++ tokTypeStr t)

theorem parseValue_length_lt {ts ts' : List Token} {v : Value}
    (h : parseValue ts = .ok (v, ts')) : ts'.length < ts.length := by
  cases ts with
  | nil => exact absurd h (by simp [parseValue, peekT, eofToken])
  | cons a l =>
    unfold parseValue at h
    split at h <;>
      first
      | (simp only [Except.ok.injEq, Prod.mk.injEq] at h
         obtain ⟨-, h2⟩ := h
         subst h2
         simp [peekT])
      | exact absurd h (by simp)

theorem expectT_length_le {tokenType : TokType} {ts ts' : List Token} {tok : Token}
    (h : expectT tokenType ts = .ok (tok, ts')) : ts'.length ≤ ts.length := by
  obtain ⟨h1, -⟩ := expectT_ok_tail h
  subst h1
  cases ts <;> simp

theorem tail_length_le (ts : List Token) : ts.tail.length ≤ ts.length := by
  cases ts <;> simp

/-- One AST node per statement kind, exactly the tagged objects the
source's parse routines return. -/
inductive Ast where
  | createDatabaseStmt (name : String)
  | useStmt (database : String)
  | showDatabasesStmt
  | showTablesStmt
  | createTableStmt (name : String) (columns : List ColumnDef) (constraints : Constraints)
  | createIndexStmt (tableName columnName : String)
  | insertStmt (table : String) (values : List Value)
  | selectStmt (columns : List String) (table : String)
      (join : Option JoinClause) (whereC : Option WhereClause)
  | updateStmt (table : String) (updates : List (String × Value)) (whereC : Option WhereClause)
  | deleteStmt (table : String) (whereC : Option WhereClause)
  | dotCommandStmt (command : String)
  deriving DecidableEq, Repr

/-- The `while (currentToken.type === COMMA)` tail of `parseColumnList`.
The loops of the parser recurse on fuel so that they unfold by iota
reduction; every iteration consumes at least two tokens (shown by
`parseIdentifier_length_lt` and friends above), so the `ts.length + 1`
the entry points pass can never run out and the fuel-exhausted arm is
unreachable. -/
def parseColumnListRest (acc : List String) :
    Nat → List Token → Except String (List String × List Token)
  | 0, ts => .ok (acc, ts)
  | fuel + 1, ts =>
    if (peekT ts).type = TokType.COMMA then
      match parseIdentifier ts.tail with
      | .error e => .error e
      | .ok (name, ts') => parseColumnListRest (acc ++ [name]) fuel ts'
    else .ok (acc, ts)

/-- `parseColumnList()`. -/
def parseColumnList (ts : List Token) : Except String (List String × List Token) :=
  if (peekT ts).type = TokType.ASTERISK then .ok (["*"], ts.tail)
  else
    match parseIdentifier ts with
    | .error e => .error e
    | .ok (name, ts1) => parseColumnListRest [name] (ts1.length + 1) ts1

/-- `parseWhereClause()`: `WHERE`, a qualifiable identifier, one of
`=`/`<`/`>`, and an integer, string, or qualifiable identifier (the
identifier is kept as its name string). -/
def parseWhereClause (ts : List Token) : Except String (WhereClause × List Token) :=
  match expectT .WHERE ts with
  | .error e => .error e
  | .ok (_, ts1) =>
    match parseIdentifier ts1 with
    | .error e => .error e
    | .ok (left, ts2) =>
      let operator := peekT ts2
      if operator.type = TokType.ASSIGN ∨ operator.type = TokType.LESS_THAN ∨
          operator.type = TokType.GREATER_THAN then
        let ts3 := ts2.tail
        match (peekT ts3).type with
        | .INTEGER =>
          .ok (⟨left, operator.literal, .vInt (parseIntLit (peekT ts3).literal)⟩, ts3.tail)
        | .STRING => .ok (⟨left, operator.literal, .vStr (peekT ts3).literal⟩, ts3.tail)
        | .IDENTIFIER =>
          match parseIdentifier ts3 with
          | .error e => .error e
          | .ok (rightName, ts4) => .ok (⟨left, operator.literal, .vStr rightName⟩, ts4)
        | t => .error ("Invalid value in WHERE clause: " ++ tokTypeStr t)
      else .error ("Invalid operator in WHERE clause: " ++ tokTypeStr operator.type)

/-- The inline `if (currentToken.type === WHERE) ...` of SELECT, UPDATE
and DELETE parsing. -/
def parseOptionalWhere (ts : List Token) :
    Except String (Option WhereClause × List Token) :=
  if (peekT ts).type = TokType.WHERE then
    match parseWhereClause ts with
    | .error e => .error e
    | .ok (w, ts') => .ok (some w, ts')
  else .ok (none, ts)

/-- The comma loop of `parseValueList`, on fuel like
`parseColumnListRest`. -/
def parseValueListRest (acc : List Value) :
    Nat → List Token → Except String (List Value × List Token)
  | 0, ts => .ok (acc, ts)
  | fuel + 1, ts =>
    if (peekT ts).type = TokType.COMMA then
      match parseValue ts.tail with
      | .error e => .error e
      | .ok (v, ts') => parseValueListRest (acc ++ [v]) fuel ts'
    else .ok (acc, ts)

/-- `parseValueList()`. -/
def parseValueList (ts : List Token) : Except String (List Value × List Token) :=
  match expectT .LEFT_PAREN ts with
  | .error e => .error e
  | .ok (_, ts1) =>
    match parseValue ts1 with
    | .error e => .error e
    | .ok (v, ts2) =>
      match parseValueListRest [v] (ts2.length + 1) ts2 with
      | .error e => .error e
      | .ok (vals, ts3) =>
        match expectT .RIGHT_PAREN ts3 with
        | .error e => .error e
        | .ok (_, ts4) => .ok (vals, ts4)

/-- The comma loop of `parseUpdates`, on fuel like
`parseColumnListRest`. -/
def parseUpdatesRest (acc : List (String × Value)) :
    Nat → List Token → Except String (List (String × Value) × List Token)
  | 0, ts => .ok (acc, ts)
  | fuel + 1, ts =>
    if (peekT ts).type = TokType.COMMA then
      match expectT .IDENTIFIER ts.tail with
      | .error e => .error e
      | .ok (colTok, tsa) =>
        match expectT .ASSIGN tsa with
        | .error e => .error e
        | .ok (_, tsb) =>
          match parseValue tsb with
          | .error e => .error e
          | .ok (v, ts') => parseUpdatesRest (acc ++ [(colTok.literal, v)]) fuel ts'
    else .ok (acc, ts)

/-- `parseUpdates()`: one or more `column = literal` assignments. -/
def parseUpdates (ts : List Token) :
    Except String (List (String × Value) × List Token) :=
  match expectT .IDENTIFIER ts with
  | .error e => .error e
  | .ok (colTok, ts1) =>
    match expectT .ASSIGN ts1 with
    | .error e => .error e
    | .ok (_, ts2) =>
      match parseValue ts2 with
      | .error e => .error e
      | .ok (v, ts3) => parseUpdatesRest [(colTok.literal, v)] (ts3.length + 1) ts3

/-- The `while (currentToken.type !== RIGHT_PAREN)` body of
`parseCreateTable`: column definitions interleaved with PRIMARY KEY and
FOREIGN KEY declarations (the `PRIMARY`/`FOREIGN` token kinds are,
however, unreachable from the scanner — see `keywords`).  On fuel like
`parseColumnListRest`: every iteration consumes at least two tokens, so
the `ts.length + 1` passed by `parseCreateTable` cannot run out. -/
def parseTableItems (cols : List ColumnDef) (cons : Constraints) :
    Nat → List Token → Except String ((List ColumnDef × Constraints) × List Token)
  | 0, ts => .ok ((cols, cons), ts)
  | fuel + 1, ts =>
    if (peekT ts).type = TokType.RIGHT_PAREN then .ok ((cols, cons), ts)
    else if (peekT ts).type = TokType.PRIMARY then
      match expectT .KEY ts.tail with
      | .error e => .error e
      | .ok (_, a) =>
        match expectT .LEFT_PAREN a with
        | .error e => .error e
        | .ok (_, b) =>
          match expectT .IDENTIFIER b with
          | .error e => .error e
          | .ok (pkTok, c) =>
            match expectT .RIGHT_PAREN c with
            | .error e => .error e
            | .ok (_, d) =>
              let cons' : Constraints := { cons with primaryKey := some pkTok.literal }
              if (peekT d).type = TokType.COMMA then
                parseTableItems cols cons' fuel d.tail
              else .ok ((cols, cons'), d)
    else if (peekT ts).type = TokType.FOREIGN then
      match expectT .KEY ts.tail with
      | .error e => .error e
      | .ok (_, a) =>
        match expectT .LEFT_PAREN a with
        | .error e => .error e
        | .ok (_, b) =>
          match expectT .IDENTIFIER b with
          | .error e => .error e
          | .ok (colTok, c) =>
            match expectT .RIGHT_PAREN c with
            | .error e => .error e
            | .ok (_, d) =>
              match expectT .REFERENCES d with
              | .error e => .error e
              | .ok (_, f) =>
                match expectT .IDENTIFIER f with
                | .error e => .error e
                | .ok (refTableTok, g) =>
                  match expectT .LEFT_PAREN g with
                  | .error e => .error e
                  | .ok (_, i) =>
                    match expectT .IDENTIFIER i with
                    | .error e => .error e
                    | .ok (refColTok, j) =>
                      match expectT .RIGHT_PAREN j with
                      | .error e => .error e
                      | .ok (_, k) =>
                        let cons' : Constraints :=
                          { cons with foreignKeys := cons.foreignKeys ++
                              [⟨colTok.literal, refTableTok.literal, refColTok.literal⟩] }
                        if (peekT k).type = TokType.COMMA then
                          parseTableItems cols cons' fuel k.tail
                        else .ok ((cols, cons'), k)
    else
      match expectT .IDENTIFIER ts with
      | .error e => .error e
      | .ok (colNameTok, a) =>
        let colType := (peekT a).type
        let b := a.tail
        let cols' := cols ++ [⟨colNameTok.literal, tokTypeStr colType⟩]
        if (peekT b).type = TokType.COMMA then
          parseTableItems cols' cons fuel b.tail
        else .ok ((cols', cons), b)

/-- `parseSelectStatement()`: column list, table, at most one JOIN with an
equality condition of two qualifiable identifiers, optional WHERE, `;`. -/
def parseSelectStatement (ts : List Token) : Except String (Ast × List Token) := do
  let (_, ts1) ← expectT .SELECT ts
  let (columns, ts2) ← parseColumnList ts1
  let (_, ts3) ← expectT .FROM ts2
  let (tableTok, ts4) ← expectT .IDENTIFIER ts3
  let (joinClause, ts5) ←
    if (peekT ts4).type = TokType.JOIN then do
      let (joinTableTok, a) ← expectT .IDENTIFIER ts4.tail
      let (_, b) ← expectT .ON a
      let (leftCol, c) ← parseIdentifier b
      let (_, d) ← expectT .ASSIGN c
      let (rightCol, f) ← parseIdentifier d
      pure (some (⟨joinTableTok.literal, leftCol, rightCol⟩ : JoinClause), f)
    else pure (none, ts4)
  let (whereClause, ts6) ← parseOptionalWhere ts5
  let (_, ts7) ← expectT .SEMICOLON ts6
  pure (.selectStmt columns tableTok.literal joinClause whereClause, ts7)

/-- `parseInsertStatement()`. -/
def parseInsertStatement (ts : List Token) : Except String (Ast × List Token) := do
  let (_, ts1) ← expectT .INSERT ts
  let (_, ts2) ← expectT .INTO ts1
  let (tableTok, ts3) ← expectT .IDENTIFIER ts2
  let (_, ts4) ← expectT .VALUES ts3
  let (values, ts5) ← parseValueList ts4
  let (_, ts6) ← expectT .SEMICOLON ts5
  pure (.insertStmt tableTok.literal values, ts6)

/-- `parseUpdateStatement()`. -/
def parseUpdateStatement (ts : List Token) : Except String (Ast × List Token) := do
  let (_, ts1) ← expectT .UPDATE ts
  let (tableTok, ts2) ← expectT .IDENTIFIER ts1
  let (_, ts3) ← expectT .SET ts2
  let (updates, ts4) ← parseUpdates ts3
  let (whereClause, ts5) ← parseOptionalWhere ts4
  let (_, ts6) ← expectT .SEMICOLON ts5
  pure (.updateStmt tableTok.literal updates whereClause, ts6)

/-- `parseDeleteStatement()`. -/
def parseDeleteStatement (ts : List Token) : Except String (Ast × List Token) := do
  let (_, ts1) ← expectT .DELETE ts
  let (_, ts2) ← expectT .FROM ts1
  let (tableTok, ts3) ← expectT .IDENTIFIER ts2
  let (whereClause, ts4) ← parseOptionalWhere ts3
  let (_, ts5) ← expectT .SEMICOLON ts4
  pure (.deleteStmt tableTok.literal whereClause, ts5)

/-- `parseCreateDatabase()`. -/
def parseCreateDatabase (ts : List Token) : Except String (Ast × List Token) := do
  let (_, ts1) ← expectT .DATABASE ts
  let (nameTok, ts2) ← expectT .IDENTIFIER ts1
  let (_, ts3) ← expectT .SEMICOLON ts2
  pure (.createDatabaseStmt nameTok.literal, ts3)

/-- `parseCreateTable()`. -/
def parseCreateTable (ts : List Token) : Except String (Ast × List Token) := do
  let (_, ts1) ← expectT .TABLE ts
  let (nameTok, ts2) ← expectT .IDENTIFIER ts1
  let (_, ts3) ← expectT .LEFT_PAREN ts2
  let (colsCons, ts4) ← parseTableItems [] ⟨none, []⟩ (ts3.length + 1) ts3
  let (_, ts5) ← expectT .RIGHT_PAREN ts4
  let (_, ts6) ← expectT .SEMICOLON ts5
  pure (.createTableStmt nameTok.literal colsCons.1 colsCons.2, ts6)

/-- `parseCreateStatement()`: CREATE DATABASE / TABLE / INDEX. -/
def parseCreateStatement (ts : List Token) : Except String (Ast × List Token) := do
  let (_, ts1) ← expectT .CREATE ts
  match (peekT ts1).type with
  | .DATABASE => parseCreateDatabase ts1
  | .TABLE => parseCreateTable ts1
  | .INDEX => do
    let (tableTok, a) ← expectT .IDENTIFIER ts1.tail
    let (_, b) ← expectT .LEFT_PAREN a
    let (colTok, c) ← expectT .IDENTIFIER b
    let (_, d) ← expectT .RIGHT_PAREN c
    let (_, f) ← expectT .SEMICOLON d
    pure (.createIndexStmt tableTok.literal colTok.literal, f)
  | t => .error ("Unknown CREATE statement: " ++ tokTypeStr t)

/-- `parseUseStatement()`. -/
def parseUseStatement (ts : List Token) : Except String (Ast × List Token) := do
  let (_, ts1) ← expectT .USE ts
  let (dbTok, ts2) ← expectT .IDENTIFIER ts1
  let (_, ts3) ← expectT .SEMICOLON ts2
  pure (.useStmt dbTok.literal, ts3)

/-- `parseShowStatement()`. -/
def parseShowStatement (ts : List Token) : Except String (Ast × List Token) := do
  let (_, ts1) ← expectT .SHOW ts
  match (peekT ts1).type with
  | .DATABASES => do
    let (_, ts2) ← expectT .SEMICOLON ts1.tail
    pure (.showDatabasesStmt, ts2)
  | .TABLES => do
    let (_, ts2) ← expectT .SEMICOLON ts1.tail
    pure (.showTablesStmt, ts2)
  | t => .error ("Unknown SHOW statement: " ++ tokTypeStr t)

/-- `parseDotCommand()`: no terminating semicolon. -/
def parseDotCommand (ts : List Token) : Except String (Ast × List Token) :=
  .ok (.dotCommandStmt (peekT ts).literal, ts.tail)

/-- `currentToken.type.startsWith("DOT_")`: exactly the three dot-command
token kinds have such names. -/
def isDotType (t : TokType) : Bool :=
  match t with
  | .DOT_EXIT | .DOT_CLEAR | .DOT_QUIT => true
  | _ => false

/-- `parseStatement()`: dispatch on the first token. -/
def parseStatement (ts : List Token) : Except String (Ast × List Token) :=
  match (peekT ts).type with
  | .SELECT => parseSelectStatement ts
  | .INSERT => parseInsertStatement ts
  | .UPDATE => parseUpdateStatement ts
  | .DELETE => parseDeleteStatement ts
  | .CREATE => parseCreateStatement ts
  | .USE => parseUseStatement ts
  | .SHOW => parseShowStatement ts
  | .EOF => .error "Empty statement"
  | t =>
    if isDotType t then parseDotCommand ts
    else .error ("Unknown statement type: " ++ tokTypeStr t)

/-! ## Dispatcher (`interpreter.js`) -/

/-- What one `execute` call hands back: a row sequence, a message string,
or — for `.exit`/`.quit` — the `process.exit(0)` side effect, which is the
one outcome that is not a returned value. -/
inductive ExecResult where
  | rows (rs : List Row)
  | msg (s : String)
  | exits
  deriving DecidableEq, Repr

/-- `executeDotCommand(command)`. -/
def executeDotCommand (command : String) : ExecResult :=
  match command with
  | ".exit" => .exits
  | ".quit" => .exits
  | ".clear" => .msg "\x1B[2J\x1B[0;0H"
  | _ => .msg ("Unknown command: " ++ command)

/-- `executeAST(ast)`: a pure dispatch to one storage-engine method.  An
`Except.error` is an exception still in flight, to be caught by
`execute`'s try/catch.  The source's `default` branch is unreachable: the
parser produces only the node kinds matched here. -/
def executeAST (ast : Ast) (st : Engine) : Except String ExecResult × Engine :=
  match ast with
  | .createDatabaseStmt name =>
    let r := createDatabase st name; (r.1.map .msg, r.2)
  | .useStmt database =>
    let r := useDatabase st database; (r.1.map .msg, r.2)
  | .showDatabasesStmt =>
    let r := showDatabases st; (r.1.map .msg, r.2)
  | .showTablesStmt =>
    let r := showTables st; (r.1.map .msg, r.2)
  | .createTableStmt name columns constraints =>
    let r := createTable st name columns constraints; (r.1.map .msg, r.2)
  | .insertStmt table values =>
    let r := insertIntoTable st table values; (r.1.map .msg, r.2)
  | .selectStmt columns table join whereC =>
    let r := selectFromTable st table columns whereC join; (r.1.map .rows, r.2)
  | .createIndexStmt tableName columnName =>
    let r := createIndex st tableName columnName; (r.1.map .msg, r.2)
  | .updateStmt table updates whereC =>
    let r := updateTable st table updates whereC; (r.1.map .msg, r.2)
  | .deleteStmt table whereC =>
    let r := deleteFromTable st table whereC; (r.1.map .msg, r.2)
  | .dotCommandStmt command => (.ok (executeDotCommand command), st)

/-- `Interpreter.execute(input)`: fresh lexer and parser, then dispatch,
with every thrown failure caught once and rendered `"Error: <message>"`.
`none` records the one way no value is produced: the scanner's divergence
on a dot-command prefix. -/
def execute (input : String) (st : Engine) : Option (ExecResult × Engine) :=
  match tokenize? input.data with
  | none => none
  | some tokens =>
    match parseStatement tokens with
    | .error e => some (.msg ("Error: " ++ e), st)
    | .ok (ast, _) =>
      match executeAST ast st with
      | (.ok r, st') => some (r, st')
      | (.error e, st') => some (.msg ("Error: " ++ e), st')

/-! ## Map lemmas -/

theorem getA_setA_self {κ α : Type} [DecidableEq κ] (m : List (κ × α)) (k : κ) (v : α) :
    getA (setA m k v) k = some v := by
  induction m with
  | nil => simp [getA, setA]
  | cons p m ih =>
    by_cases h : p.1 = k
    · simp [setA, h, getA]
    · simp [setA, h, getA, ih]

theorem getA_setA_ne {κ α : Type} [DecidableEq κ] (m : List (κ × α)) (k k' : κ) (v : α)
    (h : k' ≠ k) : getA (setA m k v) k' = getA m k' := by
  induction m with
  | nil => simp [getA, setA, Ne.symm h]
  | cons p m ih =>
    by_cases hp : p.1 = k
    · simp [setA, hp, getA, Ne.symm h]
    · simp [setA, hp, getA, ih]

theorem getA_updateA_self {κ α : Type} [DecidableEq κ] (m : List (κ × α)) (k : κ)
    (f : α → α) : getA (updateA m k f) k = (getA m k).map f := by
  induction m with
  | nil => simp [getA, updateA]
  | cons p m ih =>
    by_cases h : p.1 = k
    · simp [updateA, h, getA]
    · simp [updateA, h, getA, ih]

theorem getA_updateA_ne {κ α : Type} [DecidableEq κ] (m : List (κ × α)) (k k' : κ)
    (f : α → α) (h : k' ≠ k) : getA (updateA m k f) k' = getA m k' := by
  induction m with
  | nil => simp [updateA]
  | cons p m ih =>
    by_cases hp : p.1 = k
    · simp [updateA, hp, getA, Ne.symm h]
    · simp [updateA, hp, getA, ih]

theorem curDb_eq_some {st : Engine} {dbn : String} {db : DB}
    (h : curDb st = some (dbn, db)) :
    st.currentDatabase = some dbn ∧ getA st.databases dbn = some db := by
  unfold curDb at h
  split at h
  · exact absurd h (by simp)
  · rename_i n hn
    split at h
    · exact absurd h (by simp)
    · rename_i db' hdb'
      simp only [Option.some.injEq, Prod.mk.injEq] at h
      obtain ⟨h1, h2⟩ := h
      subst h1
      exact ⟨hn, by rw [hdb', h2]⟩

/-- The table stored at `(dbn, tn)`. -/
def tableAt (st : Engine) (dbn tn : String) : Option Table :=
  match getA st.databases dbn with
  | none => none
  | some db => getA db.tables tn

theorem tableAt_engSetTable (st : Engine) (dbn tn : String) (t : Table) (d tn' : String) :
    tableAt (engSetTable st dbn tn t) d tn' =
      if d = dbn ∧ (getA st.databases dbn).isSome ∧ tn' = tn then some t
      else tableAt st d tn' := by
  unfold tableAt engSetTable
  by_cases hd : d = dbn
  · subst hd
    rw [getA_updateA_self]
    cases hdb : getA st.databases d with
    | none => simp
    | some db =>
      simp only [Option.map_some, Option.isSome_some]
      by_cases htn : tn' = tn
      · subst htn
        simp [getA_setA_self]
      · simp [htn, getA_setA_ne db.tables tn tn' t htn]
  · rw [getA_updateA_ne _ _ _ _ hd]
    simp [hd]

/-! ## Claim C4 -/

/-- C4: `createTable`, called while a database is selected and a table of
the same name already exists, does not fail: it silently replaces the
existing table with a fresh empty one holding the lowercased column and
constraint names; it fails only when no database is selected. -/
theorem C4_createTable_overwrites_silently :
    (∀ (st : Engine) (name : String) (cols : List ColumnDef) (cons : Constraints),
       st.currentDatabase = none →
       createTable st name cols cons = (.error "No database selected", st))
    ∧ (∀ (st : Engine) (dbn : String) (db : DB) (name : String)
         (cols : List ColumnDef) (cons : Constraints) (tOld : Table),
       st.currentDatabase = some dbn →
       getA st.databases dbn = some db →
       getA db.tables name = some tOld →
       ∃ st', createTable st name cols cons =
           (.ok ("Table '" ++ name ++ "' created successfully."), st')
         ∧ tableAt st' dbn name = some
             { name := name, columns := normalizeColumns cols,
               constraints := normalizeConstraints cons, rows := [], indices := [] }) := by
  constructor
  · intro st name cols cons h
    simp [createTable, curDb, h]
  · intro st dbn db name cols cons tOld hcur hdb hold
    have hc : curDb st = some (dbn, db) := by simp [curDb, hcur, hdb]
    refine ⟨engSetTable st dbn name
      { name := name, columns := normalizeColumns cols,
        constraints := normalizeConstraints cons, rows := [], indices := [] }, ?_, ?_⟩
    · simp [createTable, hc]
    · rw [tableAt_engSetTable]
      simp [hdb]

def tW4 : Table :=
  { name := "t"
    columns := [⟨"Id", "INT"⟩]
    constraints := ⟨none, []⟩
    rows := [[("id", .vInt 1)]]
    indices := [] }

def dbW4 : DB := { name := "d", tables := [("t", tW4)] }

def stW4 : Engine := { databases := [("d", dbW4)], currentDatabase := some "d" }

theorem C4_witness :
    ∃ st', createTable stW4 "t" [⟨"Id", "INT"⟩] ⟨some "Id", []⟩ =
        (.ok ("Table '" ++ "t" ++ "' created successfully."), st')
      ∧ tableAt st' "d" "t" = some
          { name := "t", columns := normalizeColumns [⟨"Id", "INT"⟩],
            constraints := normalizeConstraints ⟨some "Id", []⟩, rows := [], indices := [] } :=
  C4_createTable_overwrites_silently.2 stW4 "d" dbW4 "t" [⟨"Id", "INT"⟩] ⟨some "Id", []⟩
    tW4 rfl rfl rfl

/-! ## Claim C10 -/

/-- C10: a successful `createDatabase` never changes the current-database
selection nor any previously registered database; in particular, on a
fresh engine, `createTable` still fails with "No database selected" right
after a `createDatabase`. -/
theorem C10_createDatabase_preserves_selection :
    (∀ (st : Engine) (name r : String) (st' : Engine),
       createDatabase st name = (.ok r, st') →
       st'.currentDatabase = st.currentDatabase
       ∧ ∀ n, n ≠ name → getA st'.databases n = getA st.databases n)
    ∧ (∀ (name tn : String) (cols : List ColumnDef) (cons : Constraints) (r : String)
         (st' : Engine),
       createDatabase { databases := [], currentDatabase := none } name = (.ok r, st') →
       createTable st' tn cols cons = (.error "No database selected", st')) := by
  constructor
  · intro st name r st' h
    unfold createDatabase at h
    split at h
    · exact absurd h (by simp)
    · simp only [Prod.mk.injEq] at h
      obtain ⟨-, h2⟩ := h
      subst h2
      exact ⟨rfl, fun n hn => getA_setA_ne _ _ _ _ hn⟩
  · intro name tn cols cons r st' h
    unfold createDatabase at h
    split at h
    · exact absurd h (by simp [getA] at *)
    · simp only [Prod.mk.injEq] at h
      obtain ⟨-, h2⟩ := h
      subst h2
      simp [createTable, curDb]

theorem C10_witness :
    (createDatabase { databases := [], currentDatabase := none } "shop").2.currentDatabase
      = ({ databases := [], currentDatabase := none } : Engine).currentDatabase
    ∧ createTable (createDatabase { databases := [], currentDatabase := none } "shop").2
        "t" [] ⟨none, []⟩
      = (.error "No database selected",
         (createDatabase { databases := [], currentDatabase := none } "shop").2) := by
  constructor
  · exact (C10_createDatabase_preserves_selection.1
      { databases := [], currentDatabase := none } "shop" _ _ rfl).1
  · exact C10_createDatabase_preserves_selection.2 "shop" "t" [] ⟨none, []⟩ _ _ rfl

/-! ## Claim C8 -/

/-- Replace (only) the `indices` field of the table stored at `(dbn, tn)`. -/
def engSetIndices (st : Engine) (dbn tn : String) (idx : List (String × TblIndex)) : Engine :=
  { st with databases := updateA st.databases dbn (fun db =>
      { db with tables := updateA db.tables tn (fun t => { t with indices := idx }) }) }

theorem engSetTable_indices_frame (st : Engine) (dbn tn : String) (db : DB)
    (t0 t : Table) (hc : curDb st = some (dbn, db)) (hg : getA db.tables tn = some t0)
    (hind : t.indices = t0.indices) (d tn' : String) :
    (tableAt (engSetTable st dbn tn t) d tn').map Table.indices
      = (tableAt st d tn').map Table.indices := by
  obtain ⟨-, hdb⟩ := curDb_eq_some hc
  rw [tableAt_engSetTable]
  split
  · rename_i hcond
    obtain ⟨h1, -, h3⟩ := hcond
    have htab : tableAt st d tn' = some t0 := by
      rw [h1, h3]
      simp [tableAt, hdb, hg]
    rw [htab]
    simp [hind]
  · rfl

/-- `selectFromTable`'s result only reads the current selection and, per
table, presence and `rows`; two engines agreeing on those agree on it. -/
theorem selectFromTable_fst_congr (st1 st2 : Engine) (tableName : String)
    (columns : List String) (wc : Option WhereClause) (jc : Option JoinClause)
    (h : match curDb st1, curDb st2 with
         | none, none => True
         | some (_, db1), some (_, db2) =>
           ∀ n, (getA db1.tables n).map Table.rows = (getA db2.tables n).map Table.rows
         | _, _ => False) :
    (selectFromTable st1 tableName columns wc jc).1
      = (selectFromTable st2 tableName columns wc jc).1 := by
  unfold selectFromTable
  cases h1 : curDb st1 with
  | none =>
    cases h2 : curDb st2 with
    | none => rfl
    | some p2 => rw [h1, h2] at h; exact absurd h (by simp)
  | some p1 =>
    cases h2 : curDb st2 with
    | none => rw [h1, h2] at h; obtain ⟨a, b⟩ := p1; exact absurd h (by simp)
    | some p2 =>
      obtain ⟨n1, db1⟩ := p1
      obtain ⟨n2, db2⟩ := p2
      rw [h1, h2] at h
      simp only at h
      dsimp only
      have hmain := h tableName
      cases hl1 : getA db1.tables tableName with
      | none =>
        cases hl2 : getA db2.tables tableName with
        | none => rfl
        | some t2 => rw [hl1, hl2] at hmain; exact absurd hmain (by simp)
      | some t1 =>
        cases hl2 : getA db2.tables tableName with
        | none => rw [hl1, hl2] at hmain; exact absurd hmain (by simp)
        | some t2 =>
          rw [hl1, hl2] at hmain
          simp only [Option.map_some', Option.some.injEq] at hmain
          dsimp only
          cases jc with
          | none => rw [hmain]
          | some j =>
            have hjoin := h j.table
            dsimp only
            cases hj1 : getA db1.tables j.table with
            | none =>
              cases hj2 : getA db2.tables j.table with
              | none => rfl
              | some r2 => rw [hj1, hj2] at hjoin; exact absurd hjoin (by simp)
            | some r1 =>
              cases hj2 : getA db2.tables j.table with
              | none => rw [hj1, hj2] at hjoin; exact absurd hjoin (by simp)
              | some r2 =>
                rw [hj1, hj2] at hjoin
                simp only [Option.map_some', Option.some.injEq] at hjoin
                dsimp only
                rw [hmain, hjoin]

/-- C8: an index built by `createIndex` is decorative — `insertIntoTable`,
`updateTable` and `deleteFromTable` never touch any table's stored
indices, and `selectFromTable`'s join/filter/projection result is
identical whatever the indices of any table are (the filtering path never
consults them). -/
theorem C8_index_is_decorative :
    (∀ (st : Engine) (tn : String) (vals : List Value) (r : String) (st' : Engine),
       insertIntoTable st tn vals = (.ok r, st') →
       ∀ d t', (tableAt st' d t').map Table.indices = (tableAt st d t').map Table.indices)
    ∧ (∀ (st : Engine) (tn : String) (ups : List (String × Value))
         (w : Option WhereClause) (r : String) (st' : Engine),
       updateTable st tn ups w = (.ok r, st') →
       ∀ d t', (tableAt st' d t').map Table.indices = (tableAt st d t').map Table.indices)
    ∧ (∀ (st : Engine) (tn : String) (w : Option WhereClause) (r : String) (st' : Engine),
       deleteFromTable st tn w = (.ok r, st') →
       ∀ d t', (tableAt st' d t').map Table.indices = (tableAt st d t').map Table.indices)
    ∧ (∀ (st : Engine) (dbn tn : String) (idx : List (String × TblIndex))
         (tableName : String) (columns : List String)
         (wc : Option WhereClause) (jc : Option JoinClause),
       (selectFromTable (engSetIndices st dbn tn idx) tableName columns wc jc).1
         = (selectFromTable st tableName columns wc jc).1) := by
  refine ⟨?_, ?_, ?_, ?_⟩
  · intro st tn vals r st' h d t'
    unfold insertIntoTable at h
    cases hc : curDb st with
    | none => rw [hc] at h; exact absurd h (by simp)
    | some p =>
      obtain ⟨dbn, db⟩ := p
      rw [hc] at h
      simp only at h
      cases hg : getA db.tables tn with
      | none => rw [hg] at h; exact absurd h (by simp)
      | some t0 =>
        rw [hg] at h
        simp only at h
        cases hl : insertRowLoop db t0 vals t0.columns 0 [] with
        | error e => rw [hl] at h; exact absurd h (by simp)
        | ok row =>
          rw [hl] at h
          simp only [Prod.mk.injEq] at h
          obtain ⟨-, h2⟩ := h
          subst h2
          refine engSetTable_indices_frame st dbn tn db t0 _ hc hg ?_ d t'
          rfl
  · intro st tn ups w r st' h d t'
    unfold updateTable at h
    cases hc : curDb st with
    | none => rw [hc] at h; exact absurd h (by simp)
    | some p =>
      obtain ⟨dbn, db⟩ := p
      rw [hc] at h
      simp only at h
      cases hg : getA db.tables tn with
      | none => rw [hg] at h; exact absurd h (by simp)
      | some t0 =>
        rw [hg] at h
        simp only [Prod.mk.injEq] at h
        obtain ⟨-, h2⟩ := h
        subst h2
        refine engSetTable_indices_frame st dbn tn db t0 _ hc hg ?_ d t'
        rfl
  · intro st tn w r st' h d t'
    unfold deleteFromTable at h
    cases hc : curDb st with
    | none => rw [hc] at h; exact absurd h (by simp)
    | some p =>
      obtain ⟨dbn, db⟩ := p
      rw [hc] at h
      simp only at h
      cases hg : getA db.tables tn with
      | none => rw [hg] at h; exact absurd h (by simp)
      | some t0 =>
        rw [hg] at h
        simp only [Prod.mk.injEq] at h
        obtain ⟨-, h2⟩ := h
        subst h2
        refine engSetTable_indices_frame st dbn tn db t0 _ hc hg ?_ d t'
        rfl
  · intro st dbn tn idx tableName columns wc jc
    apply selectFromTable_fst_congr
    unfold curDb engSetIndices
    cases hcur : st.currentDatabase with
    | none => simp
    | some n =>
      simp only
      by_cases hn : n = dbn
      · subst hn
        rw [getA_updateA_self]
        cases hdb : getA st.databases n with
        | none => simp
        | some db =>
          simp only [Option.map_some]
          intro m
          by_cases hm : m = tn
          · subst hm
            rw [getA_updateA_self]
            cases getA db.tables m <;> rfl
          · rw [getA_updateA_ne _ _ _ _ hm]
      · rw [getA_updateA_ne _ _ _ _ hn]
        cases getA st.databases n with
        | none => simp
        | some db => simp

def dbW8 : DB := { name := "d", tables := [("t", tW4)] }

def stW8 : Engine := { databases := [("d", dbW8)], currentDatabase := some "d" }

theorem C8_witness :
    ∀ d t', (tableAt (insertIntoTable stW8 "t" [.vInt 2]).2 d t').map Table.indices
      = (tableAt stW8 d t').map Table.indices := fun d t' =>
  C8_index_is_decorative.1 stW8 "t" [.vInt 2] "1 row inserted"
    (insertIntoTable stW8 "t" [.vInt 2]).2 rfl d t'

/-! ## Claims C2 and C3

Column checks run left to right and the whole insert aborts at the first
violation, so a duplicated primary key is only reported when no earlier
column's check fails first (and a dangling foreign key only when the
primary-key test on its own column does not fire first — the source
checks PK before FK within one column).  The claims as stated ignore
this ordering, and each has a counterexample below. -/

theorem insertRowLoop_append (db : DB) (t : Table) (values : List Value)
    (xs ys : List ColumnDef) (i : Nat) (row : Row) :
    insertRowLoop db t values (xs ++ ys) i row =
      match insertRowLoop db t values xs i row with
      | .ok row' => insertRowLoop db t values ys (i + xs.length) row'
      | .error e => .error e := by
  induction xs generalizing i row with
  | nil => simp [insertRowLoop]
  | cons c rest ih =>
    simp only [List.cons_append, insertRowLoop]
    split
    · rfl
    · split
      · split
        · rw [List.append_eq, ih]
          have harith : i + 1 + rest.length = i + (rest.length + 1) := by omega
          simp [List.length_cons, harith]
        · rfl
      · rw [List.append_eq, ih]
        have harith : i + 1 + rest.length = i + (rest.length + 1) := by omega
        simp [List.length_cons, harith]

/-- C2 (amended): an insert whose value for the declared primary-key
column duplicates an existing row's value fails with the primary-key
violation message naming the value, and leaves the engine (in particular
the table's row sequence) unchanged — provided the checks on the columns
before the primary-key column all pass, since the first failing column
wins. -/
theorem C2_pk_violation (st : Engine) (dbn tn : String) (db : DB) (t : Table)
    (pre post : List ColumnDef) (c : ColumnDef) (values : List Value) (row0 : Row)
    (hcur : st.currentDatabase = some dbn)
    (hdb : getA st.databases dbn = some db)
    (ht : getA db.tables tn = some t)
    (hcols : t.columns = pre ++ c :: post)
    (hpk : t.constraints.primaryKey = some (lowerStr c.name))
    (hpre : insertRowLoop db t values pre 0 [] = .ok row0)
    (hdup : t.rows.any
      (fun r => rowLookup r (lowerStr c.name) == values.getD pre.length .vUndefined) = true) :
    insertIntoTable st tn values =
      (.error ("PK Violation: " ++ showValue (values.getD pre.length .vUndefined)), st) := by
  have hc : curDb st = some (dbn, db) := by simp [curDb, hcur, hdb]
  simp only [insertIntoTable, hc, ht, hcols]
  rw [insertRowLoop_append, hpre]
  simp only [insertRowLoop, Nat.zero_add, hpk, hdup, beq_self_eq_true, Bool.and_true,
    Bool.and_self, if_true]

def tC2 : Table :=
  { name := "t"
    columns := [⟨"a", "INT"⟩, ⟨"b", "INT"⟩]
    constraints := ⟨some "b", [⟨"a", "z", "c"⟩]⟩
    rows := [[("a", .vInt 1), ("b", .vInt 5)]]
    indices := [] }

def stC2 : Engine :=
  { databases := [("d", { name := "d", tables := [("t", tC2)] })]
    currentDatabase := some "d" }

/-- C2, as stated, is false: here the primary key `b` is declared, the
inserted value for `b` (5) duplicates the existing row's, yet the call
fails with a *foreign-key* message about the earlier column `a` (whose
referenced table is absent), not with a primary-key violation naming 5.
The row count is still unchanged. -/
theorem C2_counterexample :
    tC2.constraints.primaryKey = some "b"
    ∧ tC2.rows.any (fun r => rowLookup r "b" == Value.vInt 5) = true
    ∧ insertIntoTable stC2 "t" [.vInt 2, .vInt 5] = (.error "FK Violation: 2", stC2)
    ∧ "FK Violation: 2" ≠ "PK Violation: 5" := by
  refine ⟨rfl, by decide, by decide, by decide⟩

def tW2 : Table :=
  { name := "t"
    columns := [⟨"id", "INT"⟩]
    constraints := ⟨some "id", []⟩
    rows := [[("id", .vInt 1)]]
    indices := [] }

def stW2 : Engine :=
  { databases := [("d", { name := "d", tables := [("t", tW2)] })]
    currentDatabase := some "d" }

theorem C2_witness :
    tW2.constraints.primaryKey = some "id"
    ∧ tW2.rows.any (fun r => rowLookup r "id" == Value.vInt 1) = true
    ∧ insertIntoTable stW2 "t" [.vInt 1] =
        (.error ("PK Violation: " ++ showValue (([Value.vInt 1]).getD 0 .vUndefined)), stW2) :=
  ⟨rfl, by decide,
   C2_pk_violation stW2 "d" "t" _ tW2 [] [] ⟨"id", "INT"⟩ [.vInt 1] []
     rfl rfl rfl rfl rfl rfl (by decide)⟩

/-- C3 (amended): an insert whose value for a foreign-key column has no
match in the referenced table's referenced column fails with the
foreign-key violation message naming the value, and leaves the engine (in
particular the table's row sequence) unchanged — provided the checks on
the earlier columns pass and the primary-key test on the same column does
not fire first. -/
theorem C3_fk_violation (st : Engine) (dbn tn : String) (db : DB) (t : Table)
    (pre post : List ColumnDef) (c : ColumnDef) (fk : ForeignKey)
    (values : List Value) (row0 : Row)
    (hcur : st.currentDatabase = some dbn)
    (hdb : getA st.databases dbn = some db)
    (ht : getA db.tables tn = some t)
    (hcols : t.columns = pre ++ c :: post)
    (hfk : t.constraints.foreignKeys.find? (fun f => f.column == (lowerStr c.name)) = some fk)
    (hpk : (t.constraints.primaryKey == some (lowerStr c.name)
        && t.rows.any
          (fun r => rowLookup r (lowerStr c.name) == values.getD pre.length .vUndefined)) = false)
    (hpre : insertRowLoop db t values pre 0 [] = .ok row0)
    (hnomatch : fkRowExists db fk (values.getD pre.length .vUndefined) = false) :
    insertIntoTable st tn values =
      (.error ("FK Violation: " ++ showValue (values.getD pre.length .vUndefined)), st) := by
  have hc : curDb st = some (dbn, db) := by simp [curDb, hcur, hdb]
  simp only [insertIntoTable, hc, ht, hcols]
  rw [insertRowLoop_append, hpre]
  simp only [insertRowLoop, Nat.zero_add, hpk, hfk, hnomatch, Bool.false_eq_true,
    if_false, Bool.not_eq_true]

def tC3 : Table :=
  { name := "t"
    columns := [⟨"a", "INT"⟩, ⟨"b", "INT"⟩]
    constraints := ⟨some "a", [⟨"b", "z", "c"⟩]⟩
    rows := [[("a", .vInt 1), ("b", .vInt 1)]]
    indices := [] }

def stC3 : Engine :=
  { databases := [("d", { name := "d", tables := [("t", tC3)] })]
    currentDatabase := some "d" }

/-- C3, as stated, is false: the foreign-key value 99 for column `b` has
no match (its referenced table `z` does not exist), yet the call fails
with a *primary-key* message about the earlier column `a`, not with a
foreign-key violation naming 99.  The row count is still unchanged. -/
theorem C3_counterexample :
    tC3.constraints.foreignKeys = [⟨"b", "z", "c"⟩]
    ∧ fkRowExists { name := "d", tables := [("t", tC3)] } ⟨"b", "z", "c"⟩ (.vInt 99) = false
    ∧ insertIntoTable stC3 "t" [.vInt 1, .vInt 99] = (.error "PK Violation: 1", stC3)
    ∧ "PK Violation: 1" ≠ "FK Violation: 99" := by
  refine ⟨rfl, by decide, by decide, by decide⟩

def tW3 : Table :=
  { name := "t"
    columns := [⟨"uid", "INT"⟩]
    constraints := ⟨none, [⟨"uid", "u", "id"⟩]⟩
    rows := []
    indices := [] }

def dbW3 : DB := { name := "d", tables := [("t", tW3)] }

def stW3 : Engine := { databases := [("d", dbW3)], currentDatabase := some "d" }

theorem C3_witness :
    fkRowExists dbW3 ⟨"uid", "u", "id"⟩ (.vInt 7) = false
    ∧ insertIntoTable stW3 "t" [.vInt 7] =
        (.error ("FK Violation: " ++ showValue (([Value.vInt 7]).getD 0 .vUndefined)), stW3) :=
  ⟨by decide,
   C3_fk_violation stW3 "d" "t" dbW3 tW3 [] [] ⟨"uid", "INT"⟩ ⟨"uid", "u", "id"⟩
     [.vInt 7] [] rfl rfl rfl rfl (by decide) (by decide) rfl (by decide)⟩

/-! ## Claim C6 -/

/-- The comparison a WHERE clause denotes: loose (coercing) equality for
`=`, the JS ordering comparisons for `<` and `>`. -/
def matchesWhere (w : WhereClause) (row : Row) : Bool :=
  let val := rowLookup row (lowerStr w.left)
  match w.operator with
  | "=" => jsLooseEq val w.right
  | "<" => jsLt val w.right
  | ">" => jsGt val w.right
  | _ => false

/-- C6: with WHERE omitted, `updateTable` assigns into every row and
`deleteFromTable` deletes every row; with a WHERE clause (whose operator
the parser restricts to `=`, `<`, `>`), exactly the rows satisfying the
comparison — loose equality for `=`, the ordering comparisons for
`<`/`>` — are assigned into resp. deleted, and every other row is kept
unchanged. -/
theorem C6_update_delete_where (st : Engine) (dbn tn : String) (db : DB) (t : Table)
    (hcur : st.currentDatabase = some dbn)
    (hdb : getA st.databases dbn = some db)
    (ht : getA db.tables tn = some t) :
    (∀ ups, ∃ m, updateTable st tn ups none =
        (.ok m, engSetTable st dbn tn { t with rows := t.rows.map (applyUpdates ups) }))
    ∧ (∀ ups w, w.operator = "=" ∨ w.operator = "<" ∨ w.operator = ">" →
        ∃ m, updateTable st tn ups (some w) =
          (.ok m, engSetTable st dbn tn
            { t with rows := t.rows.map (fun row =>
                if matchesWhere w row then applyUpdates ups row else row) }))
    ∧ (∃ m, deleteFromTable st tn none =
        (.ok m, engSetTable st dbn tn { t with rows := [] }))
    ∧ (∀ w, w.operator = "=" ∨ w.operator = "<" ∨ w.operator = ">" →
        ∃ m, deleteFromTable st tn (some w) =
          (.ok m, engSetTable st dbn tn
            { t with rows := t.rows.filter (fun row => !matchesWhere w row) })) := by
  have hc : curDb st = some (dbn, db) := by simp [curDb, hcur, hdb]
  refine ⟨?_, ?_, ?_, ?_⟩
  · intro ups
    exact ⟨_, by simp [updateTable, hc, ht, shouldUpdateRow]; rfl⟩
  · intro ups w hop
    obtain ⟨l, op, rv⟩ := w
    simp only at hop
    rcases hop with h | h | h <;> subst h <;>
      exact ⟨_, by simp [updateTable, hc, ht, shouldUpdateRow, matchesWhere]; rfl⟩
  · exact ⟨_, by simp [deleteFromTable, hc, ht]; rfl⟩
  · intro w hop
    obtain ⟨l, op, rv⟩ := w
    simp only at hop
    rcases hop with h | h | h <;> subst h <;>
      exact ⟨_, by simp [deleteFromTable, hc, ht, deleteKeepsRow, matchesWhere]; rfl⟩

def tW6 : Table :=
  { name := "t"
    columns := [⟨"id", "INT"⟩, ⟨"x", "INT"⟩]
    constraints := ⟨none, []⟩
    rows := [[("id", .vInt 1), ("x", .vInt 10)], [("id", .vInt 2), ("x", .vInt 20)]]
    indices := [] }

def dbW6 : DB := { name := "d", tables := [("t", tW6)] }

def stW6 : Engine := { databases := [("d", dbW6)], currentDatabase := some "d" }

theorem C6_witness :
    (∃ m, updateTable stW6 "t" [("x", .vInt 0)] none =
        (.ok m, engSetTable stW6 "d" "t"
          { tW6 with rows := tW6.rows.map (applyUpdates [("x", .vInt 0)]) }))
    ∧ (∃ m, deleteFromTable stW6 "t" (some ⟨"id", "=", .vInt 1⟩) =
        (.ok m, engSetTable stW6 "d" "t"
          { tW6 with rows := tW6.rows.filter (fun row => !matchesWhere ⟨"id", "=", .vInt 1⟩ row) })) :=
  ⟨(C6_update_delete_where stW6 "d" "t" dbW6 tW6 rfl rfl rfl).1 [("x", .vInt 0)],
   (C6_update_delete_where stW6 "d" "t" dbW6 tW6 rfl rfl rfl).2.2.2
     ⟨"id", "=", .vInt 1⟩ (Or.inl rfl)⟩

/-! ## Claim C1

The spec's JOIN example, run through the whole embedded pipeline.  The
parser deliberately produces the qualified names `users.id` and
`orders.user_id` for the ON condition, but `selectFromTable` looks those
strings up verbatim as row keys; rows are keyed by plain lowercased
column names, so both lookups yield `undefined`, `undefined === undefined`
holds, and *every* (left, right) pair joins: the example returns the full
2-row cross product instead of the single matching pair. -/

def usersT : Table :=
  { name := "users"
    columns := [⟨"id", "INT"⟩, ⟨"name", "TEXT"⟩]
    constraints := ⟨none, []⟩
    rows := [[("id", .vInt 1), ("name", .vStr "A")]]
    indices := [] }

def ordersT : Table :=
  { name := "orders"
    columns := [⟨"id", "INT"⟩, ⟨"user_id", "INT"⟩, ⟨"product", "TEXT"⟩]
    constraints := ⟨none, []⟩
    rows := [[("id", .vInt 10), ("user_id", .vInt 1), ("product", .vStr "X")],
             [("id", .vInt 11), ("user_id", .vInt 2), ("product", .vStr "Y")]]
    indices := [] }

def stJoin : Engine :=
  { databases :=
      [("shop", { name := "shop", tables := [("users", usersT), ("orders", ordersT)] })]
    currentDatabase := some "shop" }

/-- C1: on users = {(1,'A')} and orders = {(10,1,'X'), (11,2,'Y')}, the
spec's example query returns **two** rows (one per left×right pair), not
the one row the claim promises: the qualified ON columns are looked up
verbatim among the row keys, both sides evaluate to `undefined`, and the
strict `===` join test then accepts every pair.  With unqualified ON
columns (`ON id = user_id`), which the keys do resolve, the same state
yields the single matching row — the nearby behavior the example
intended. -/
theorem C1_join_example_cardinality :
    execute "SELECT name FROM users JOIN orders ON users.id = orders.user_id;" stJoin
      = some (.rows [[("name", Value.vStr "A")], [("name", Value.vStr "A")]], stJoin)
    ∧ ([[("name", Value.vStr "A")], [("name", Value.vStr "A")]] : List Row).length = 2
    ∧ execute "SELECT name FROM users JOIN orders ON id = user_id;" stJoin
      = some (.rows [[("name", Value.vStr "A")]], stJoin) := by
  exact ⟨rfl, rfl, rfl⟩

/-! ## Claims C5, C7, C9

The scanner's dot-command branch returns an `ILLEGAL` token *without
advancing* (`readIdentifier` is called while the current character is
still the `'.'`), so the source's `tokenize` loop never terminates on any
input whose first non-whitespace character is a `.` followed by a letter.
Consequently no dot command — `.exit`, `.quit`, `.clear`, or an unknown
one like `.help` — ever reaches `executeDotCommand`; `execute` simply
never returns on those inputs. -/

/-- C7: `tokenize` is *not* total: at position 0 of ".exit" the scanner
produces a non-EOF token without advancing, so the source's token loop
never terminates — `tokenize?` reports the divergence as `none`.  The
claim's other parts do hold where scanning terminates: an unterminated
quote still yields a String token and an unrecognized character an
Illegal token, each in a finite EOF-terminated sequence. -/
theorem C7_tokenize_diverges_on_dot_commands :
    nextToken ".exit".data 0 = (⟨.ILLEGAL, "."⟩, 0)
    ∧ tokenize? ".exit".data = none
    ∧ tokenize? "'abc".data = some [⟨.STRING, "abc"⟩, ⟨.EOF, ""⟩]
    ∧ tokenize? "@".data = some [⟨.ILLEGAL, "@"⟩, ⟨.EOF, ""⟩] := by
  exact ⟨rfl, rfl, rfl, rfl⟩

/-- C5: `execute` does *not* return a value on every non-exit input: on
".clear" (no exit/quit command) the tokenizer loops forever, so the
try/catch never even runs. -/
theorem C5_execute_diverges_on_clear :
    ∀ st : Engine, execute ".clear" st = none := fun _ => rfl

/-- C9: no dot-command input produces the promised strings: ".help" never
returns its "Unknown command" message and ".clear" never returns the
terminal-clear sequence, because tokenization of either input diverges. -/
theorem C9_dot_commands_never_answer :
    (∀ st : Engine, execute ".help" st = none)
    ∧ (∀ st : Engine, execute ".clear" st = none) := by
  exact ⟨fun _ => rfl, fun _ => rfl⟩

end AudoDB
